import Mathlib

/-!
Shallow embedding of `src/dataLogger.cpp` (the niDAQ pressure data logger).

The program configures an NI-DAQmx voltage-acquisition task (create task,
create AI voltage channel, configure the sample clock), starts it, then runs
`numberOfSamples` outer iterations; each outer iteration performs
`numberOfBuffers` inner reads.  Every inner read transfers `bufferSize`
samples into `dataBuffer`, the read's mean voltage is converted to PSI and
stored into `bufferAverages[bufferi]`; after the inner loop the mean of
`bufferAverages` is written to the CSV log together with a timestamp.
Every DAQmx call is wrapped in the `DAQmxErrChk` macro, which on a failed
status jumps to the shared `Error:` label; there the task is stopped and
cleared when a task handle exists, and `main` returns 0 on every path.

Doubles are modelled as rationals (`ℚ`); the summation order of
`std::accumulate` and the division are kept exactly as in the source.  The
external device is modelled by the statuses and sample data it hands back to
each call, which are inputs of the model; wall-clock timestamps are likewise
an input sequence of strings.
-/

set_option linter.unusedVariables false

/-- Status check of the `DAQmxErrChk` macro: NI-DAQmx reports failure through
a negative status code (`DAQmxFailed(error)` in line 24 of the source). -/
def DAQmxFailed (s : Int) : Bool := s < 0

/-- Unit conversion of line 107: `meani = (15.0 / 4.0) * (meani - 1.0)`,
voltage to PSI. -/
def convert (x : ℚ) : ℚ := (15 / 4) * (x - 1)

/-- The mean computation of lines 104 and 114:
`std::accumulate(v.begin(), v.end(), 0.0) / v.size()`. -/
def vectorMean (l : List ℚ) : ℚ := l.sum / (l.length : ℚ)

/-- Outcome of one `DAQmxReadAnalogF64` call: the returned status, the
samples the driver deposits into the caller's array (in order, starting at
index 0; stale array content beyond them is untouched), and the
samples-per-channel count reported through the `reads` out-parameter. -/
structure ReadOutcome where
  status : Int
  data : List ℚ
  sampsRead : Int
deriving Repr, DecidableEq

/-- Behaviour of the external DAQmx device across one process run: the
statuses of `DAQmxCreateTask`, `DAQmxCreateAIVoltageChan`,
`DAQmxCfgSampClkTiming` and `DAQmxStartTask`, and the outcome of the i-th
`DAQmxReadAnalogF64` call (counted globally from 0). -/
structure Device where
  createStatus : Int
  chanStatus : Int
  clkStatus : Int
  startStatus : Int
  read : Nat → ReadOutcome

/-- Effect of `DAQmxReadAnalogF64` on the caller's `dataBuffer`: the driver
overwrites the first `newData.length` slots and leaves the rest of the
fixed-capacity vector as it was. -/
def writeBuf (buf newData : List ℚ) : List ℚ :=
  (newData ++ buf.drop newData.length).take buf.length

/-- One line of `dataPressureTransducer.csv`: the header written at line 83,
or one `<timestamp>,<value>` interval record written at line 119.  Text
formatting of the double is outside the model; a record keeps the timestamp
string and the rational value. -/
inductive LogLine
  | header
  | record (timestamp : String) (value : ℚ)
deriving Repr, DecidableEq

/-- The configuration constants of lines 49-60 of the source.  They are
hard-coded there (`bufferSize = 100`, `numberOfBuffers = 60`,
`numberOfSamples = 5000`); the model keeps them as parameters so that
statements can quantify over them, with `referenceConfig` the source's
values. -/
structure Config where
  bufferSize : Nat
  numberOfBuffers : Nat
  numberOfSamples : Nat
deriving Repr, DecidableEq

/-- The constants hard-coded in the source. -/
def referenceConfig : Config := ⟨100, 60, 5000⟩

/-- The inner loop of lines 89-111, running `remaining` more iterations
(`bufferi = numberOfBuffers - remaining`).  Each iteration performs one
read; a failed status jumps to `Error:` (modelled as `Except.error` carrying
the status and the number of read calls made so far), otherwise the buffer
is overwritten, its converted mean is stored into
`bufferAverages[bufferi]`, and the loop continues.  On success it returns
the final `dataBuffer`, `bufferAverages` and read-call count. -/
def innerSteps (dev : Device) (numberOfBuffers : Nat) :
    Nat → List ℚ → List ℚ → Nat → Except (Int × Nat) (List ℚ × List ℚ × Nat)
  | 0, dataBuffer, bufferAverages, readIdx =>
    .ok (dataBuffer, bufferAverages, readIdx)
  | remaining + 1, dataBuffer, bufferAverages, readIdx =>
    let o := dev.read readIdx
    if DAQmxFailed o.status then
      .error (o.status, readIdx + 1)
    else
      let dataBuffer2 := writeBuf dataBuffer o.data
      let meani := convert (vectorMean dataBuffer2)
      innerSteps dev numberOfBuffers remaining dataBuffer2
        (bufferAverages.set (numberOfBuffers - (remaining + 1)) meani) (readIdx + 1)

/-- The observable result of the acquisition loop: the log lines produced,
the value of the `error` variable when the loop is left (0 when it completed
normally), the number of `DAQmxReadAnalogF64` calls made, and the number of
completed outer iterations (= interval records written). -/
structure LoopOut where
  log : List LogLine
  errorStatus : Int
  readCalls : Nat
  intervalsCompleted : Nat
deriving Repr, DecidableEq

/-- The outer loop of lines 86-121, running `remaining` more iterations
(`samplei` is the current outer index).  Each iteration runs the inner loop;
on a read failure the loop is abandoned with the failing status (the
interval write of line 119 is skipped), otherwise `meanOfMeans` is computed
from `bufferAverages` (line 114) and one record is appended to the log
(line 119). -/
def outerSteps (dev : Device) (ts : Nat → String) (numberOfBuffers : Nat) :
    Nat → Nat → List ℚ → List ℚ → Nat → List LogLine → Nat → LoopOut
  | 0, samplei, dataBuffer, bufferAverages, readIdx, log, done =>
    ⟨log, 0, readIdx, done⟩
  | remaining + 1, samplei, dataBuffer, bufferAverages, readIdx, log, done =>
    match innerSteps dev numberOfBuffers numberOfBuffers dataBuffer bufferAverages readIdx with
    | .error e => ⟨log, e.1, e.2, done⟩
    | .ok (dataBuffer2, bufferAverages2, readIdx2) =>
      let meanOfMeans := vectorMean bufferAverages2
      outerSteps dev ts numberOfBuffers remaining (samplei + 1) dataBuffer2 bufferAverages2
        readIdx2 (log ++ [LogLine.record (ts samplei) meanOfMeans]) (done + 1)

/-- State of the program when control reaches the `Error:` label (which every
path does, by fall-through after line 123 or by `goto`): file-lifecycle
counts, the log written so far, how many device configure / start / read
calls were made, whether a task handle exists (`taskHandle != 0`), and the
`error` variable. -/
structure PreCleanup where
  fileOpens : Nat
  fileCloses : Nat
  log : List LogLine
  configureCalls : Nat
  startCalls : Nat
  readCalls : Nat
  intervalsCompleted : Nat
  taskCreated : Bool
  errorStatus : Int
deriving Repr, DecidableEq

/-- The observable result of one whole process run. -/
structure RunResult where
  fileOpens : Nat
  fileCloses : Nat
  log : List LogLine
  stopCalls : Nat
  clearCalls : Nat
  configureCalls : Nat
  startCalls : Nat
  readCalls : Nat
  intervalsCompleted : Nat
  errorStatus : Int
  exitCode : Int
deriving Repr, DecidableEq

/-- The `Error:` label block of lines 126-140: if a task handle exists the
task is stopped (`DAQmxStopTask`) and released (`DAQmxClearTask`), each
exactly once; the function then returns 0 unconditionally.  The `ofstream`
destructor closes the file if it is open, so `fileCloses` is inherited from
the body (1 whenever the file was opened, through `close()` on the normal
path or the destructor on the error path). -/
def cleanup (p : PreCleanup) : RunResult :=
  { fileOpens := p.fileOpens
    fileCloses := p.fileCloses
    log := p.log
    stopCalls := if p.taskCreated then 1 else 0
    clearCalls := if p.taskCreated then 1 else 0
    configureCalls := p.configureCalls
    startCalls := p.startCalls
    readCalls := p.readCalls
    intervalsCompleted := p.intervalsCompleted
    errorStatus := p.errorStatus
    exitCode := 0 }

/-- The body of `main` before the `Error:` label, lines 68-123: the three
configuration calls (task creation, channel creation, clock timing), the
start call, then — only if all succeeded — opening the file, writing the
header and running the acquisition loop.  A failed `DAQmxCreateTask` leaves
`taskHandle == 0`; after a successful creation any later failure still has a
handle, so stop/clear will run. -/
def mainBody (cfg : Config) (dev : Device) (ts : Nat → String) : PreCleanup :=
  if DAQmxFailed dev.createStatus then
    ⟨0, 0, [], 1, 0, 0, 0, false, dev.createStatus⟩
  else if DAQmxFailed dev.chanStatus then
    ⟨0, 0, [], 2, 0, 0, 0, true, dev.chanStatus⟩
  else if DAQmxFailed dev.clkStatus then
    ⟨0, 0, [], 3, 0, 0, 0, true, dev.clkStatus⟩
  else if DAQmxFailed dev.startStatus then
    ⟨0, 0, [], 3, 1, 0, 0, true, dev.startStatus⟩
  else
    let out := outerSteps dev ts cfg.numberOfBuffers cfg.numberOfSamples 0
      (List.replicate cfg.bufferSize 0) (List.replicate cfg.numberOfBuffers 0) 0
      [LogLine.header] 0
    ⟨1, 1, out.log, 3, 1, out.readCalls, out.intervalsCompleted, true, out.errorStatus⟩

/-- One whole run of `main`: the body followed by the shared `Error:` cleanup
block. -/
def run (cfg : Config) (dev : Device) (ts : Nat → String) : RunResult :=
  cleanup (mainBody cfg dev ts)

/-- The converted window means the program pushes during `r` consecutive
reads starting at global read index `ridx`, assuming each read deposits a
full buffer (so the buffer content after the read is exactly that read's
data). -/
def msList (dev : Device) : Nat → Nat → List ℚ
  | 0, _ => []
  | r + 1, ridx => convert (vectorMean (dev.read ridx).data) :: msList dev r (ridx + 1)

/-- The value recorded for outer iteration `j` in a fault-free run with full
reads: the arithmetic mean of the `numberOfBuffers` converted window means
of that iteration, a function of the device data of reads
`numberOfBuffers * j + k` for `k < numberOfBuffers` only. -/
def intervalValue (cfg : Config) (dev : Device) (j : Nat) : ℚ :=
  vectorMean ((List.range cfg.numberOfBuffers).map (fun k =>
    convert (vectorMean (dev.read (cfg.numberOfBuffers * j + k)).data)))

/-- The sequence of interval values appearing in a list of log lines, in
order, with timestamps and the header erased. -/
def logValues : List LogLine → List ℚ
  | [] => []
  | LogLine.header :: rest => logValues rest
  | LogLine.record _ v :: rest => v :: logValues rest

/-- A device whose configuration calls all succeed, every read succeeding
with the full two-sample buffer `[1, 3]`. -/
def devFull : Device :=
  { createStatus := 0, chanStatus := 0, clkStatus := 0, startStatus := 0,
    read := fun _ => { status := 0, data := [1, 3], sampsRead := 2 } }

/-- A device whose very first call, `DAQmxCreateTask`, fails (status
-200088 is a DAQmx invalid-task error code). -/
def devCreateFail : Device :=
  { createStatus := -200088, chanStatus := 0, clkStatus := 0, startStatus := 0,
    read := fun _ => { status := 0, data := [], sampsRead := 0 } }

/-- A device that configures and starts fine but whose reads succeed with
only one sample deposited (`sampsRead = 1`) into a two-slot buffer. -/
def devShortRead : Device :=
  { createStatus := 0, chanStatus := 0, clkStatus := 0, startStatus := 0,
    read := fun _ => { status := 0, data := [2], sampsRead := 1 } }

/-- A device that configures and starts fine, whose reads succeed but
deposit nothing (used with a zero-capacity buffer). -/
def devEmptyRead : Device :=
  { createStatus := 0, chanStatus := 0, clkStatus := 0, startStatus := 0,
    read := fun _ => { status := 0, data := [], sampsRead := 0 } }

/-- A device whose reads fail from the third call on (status -200284 is the
DAQmx timeout error code). -/
def devFailAt2 : Device :=
  { createStatus := 0, chanStatus := 0, clkStatus := 0, startStatus := 0,
    read := fun i => if i < 2 then { status := 0, data := [1, 3], sampsRead := 2 }
                     else { status := -200284, data := [], sampsRead := 0 } }

/-- A fixed timestamp sequence for concrete runs. -/
def tsW : Nat → String := fun i => "2021-03-05 12:00:00 #" ++ toString i

/-! Section: Basic list lemmas used by the loop proofs -/

theorem take_len_append {α : Type} (l m : List α) : (l ++ m).take l.length = l := by
  induction l with
  | nil => rfl
  | cons a l ih => simp [List.take_succ_cons, ih]

theorem writeBuf_full (db d : List ℚ) (h : d.length = db.length) : writeBuf db d = d := by
  unfold writeBuf
  rw [← h, take_len_append]

theorem writeBuf_length (db d : List ℚ) (h : d.length ≤ db.length) :
    (writeBuf db d).length = db.length := by
  unfold writeBuf
  rw [List.length_take, List.length_append, List.length_drop]
  omega

theorem take_set_succ {α : Type} (l : List α) (i : Nat) (a : α) (h : i < l.length) :
    (l.set i a).take (i + 1) = l.take i ++ [a] := by
  induction l generalizing i with
  | nil => simp at h
  | cons b l ih =>
    cases i with
    | zero => simp
    | succ j =>
      simp only [List.set_cons_succ, List.take_succ_cons, List.cons_append]
      rw [ih j (by simpa using h)]

theorem msList_length (dev : Device) (r ridx : Nat) : (msList dev r ridx).length = r := by
  induction r generalizing ridx with
  | zero => rfl
  | succ r ih => simp [msList, ih]

theorem msList_eq_map (dev : Device) (r ridx : Nat) :
    msList dev r ridx =
      (List.range r).map (fun k => convert (vectorMean (dev.read (ridx + k)).data)) := by
  induction r generalizing ridx with
  | zero => rfl
  | succ r ih =>
    rw [msList, List.range_succ_eq_map, List.map_cons, List.map_map, ih (ridx + 1)]
    have harg : ∀ k : Nat, ridx + 1 + k = ridx + (k + 1) := by omega
    simp [Function.comp, harg]

theorem mainBody_taskCreated (cfg : Config) (dev : Device) (ts : Nat → String)
    (h : DAQmxFailed dev.createStatus = false) :
    (mainBody cfg dev ts).taskCreated = true := by
  cases h2 : DAQmxFailed dev.chanStatus <;> cases h3 : DAQmxFailed dev.clkStatus <;>
    cases h4 : DAQmxFailed dev.startStatus <;> simp [mainBody, h, h2, h3, h4]

/-! Section: Claim theorems: conversion, mean, exit code, cleanup -/

/-- Claim C2: the unit conversion of line 107 is the affine transform
`value = scale * (meanVoltage - offset)` with `scale = 15/4` and
`offset = 1`; in particular `convert 1 = 0`, `convert 5 = 15` and
`convert 3 = 7.5`.  (`convert` is a total function on ℚ: there is no
failure mode.) -/
theorem C2_convert_affine :
    (∀ x : ℚ, convert x = (15 / 4) * (x - 1)) ∧
    convert 1 = 0 ∧ convert 5 = 15 ∧ convert 3 = 15 / 2 := by
  refine ⟨fun x => rfl, ?_, ?_, ?_⟩ <;> norm_num [convert]

/-- Claim C3, the part that holds: for every non-empty buffer the mean
computed at lines 104 and 114 equals the sum of the values divided by their
count (equivalently, mean times count recovers the sum).  The empty-buffer
half of the claim is refuted by the source: `std::accumulate(...) /
v.size()` has no guard and no failure path, it silently divides by zero. -/
theorem C3_mean_sum_div (l : List ℚ) (h : l ≠ []) :
    vectorMean l = l.sum / (l.length : ℚ) ∧
    vectorMean l * (l.length : ℚ) = l.sum := by
  refine ⟨rfl, ?_⟩
  have hl : (l.length : ℚ) ≠ 0 := by
    simpa using h
  exact div_mul_cancel₀ _ hl

/-- Witness for C3 at the concrete buffer `[1, 3, 5]`. -/
theorem C3_mean_sum_div_witness :
    vectorMean [(1 : ℚ), 3, 5] = ([(1 : ℚ), 3, 5].sum / (([(1 : ℚ), 3, 5].length : ℚ))) ∧
    vectorMean [(1 : ℚ), 3, 5] * (([(1 : ℚ), 3, 5].length : ℚ)) = [(1 : ℚ), 3, 5].sum :=
  C3_mean_sum_div [(1 : ℚ), 3, 5] (by simp)

/-- Claim C6: `main` returns 0 on every run — on normal completion and after
any device failure alike — and every run goes through the shared `Error:`
cleanup path (`run` literally is the body followed by `cleanup`). -/
theorem C6_exit_code (cfg : Config) (dev : Device) (ts : Nat → String) :
    (run cfg dev ts).exitCode = 0 ∧ run cfg dev ts = cleanup (mainBody cfg dev ts) :=
  ⟨rfl, rfl⟩

/-- Counterexample to claim C5 as stated: when `DAQmxCreateTask` itself
fails, `taskHandle` is still 0 at the `Error:` label, so the device observes
zero `DAQmxClearTask` (release) calls — not exactly one. -/
theorem C5_counterexample :
    (run referenceConfig devCreateFail tsW).clearCalls = 0 ∧
    ¬ (run referenceConfig devCreateFail tsW).clearCalls = 1 ∧
    (run referenceConfig devCreateFail tsW).stopCalls = 0 ∧
    (run referenceConfig devCreateFail tsW).errorStatus = -200088 := by
  refine ⟨?_, ?_, ?_, ?_⟩ <;>
    norm_num [run, cleanup, mainBody, DAQmxFailed, devCreateFail, referenceConfig]

/-- Claim C5 as amended: in every run in which `DAQmxCreateTask` succeeds
(so a task handle exists), the device observes exactly one release
(`DAQmxClearTask`) and exactly one stop (`DAQmxStopTask`) call — whichever
later call fails, or none — and this cleanup runs before `main` returns.
When task creation itself fails there is no handle and no cleanup call is
made.  (`stopCalls ≤ 1` holds in every run, so "at most one stop" needs no
amendment.) -/
theorem C5_cleanup_once (cfg : Config) (dev : Device) (ts : Nat → String)
    (h : DAQmxFailed dev.createStatus = false) :
    (run cfg dev ts).clearCalls = 1 ∧ (run cfg dev ts).stopCalls = 1 := by
  have ht := mainBody_taskCreated cfg dev ts h
  constructor <;> simp [run, cleanup, ht]

/-- Witness for C5 (amended) with a fully healthy device. -/
theorem C5_cleanup_once_witness :
    (run ⟨2, 2, 1⟩ devFull tsW).clearCalls = 1 ∧ (run ⟨2, 2, 1⟩ devFull tsW).stopCalls = 1 :=
  C5_cleanup_once ⟨2, 2, 1⟩ devFull tsW rfl

/-! Section: Fault-free characterisation of the loops (claim C1) -/

theorem innerSteps_full (dev : Device) (nb bs : Nat)
    (hread : ∀ i, DAQmxFailed (dev.read i).status = false ∧ (dev.read i).data.length = bs) :
    ∀ r ridx (db ba : List ℚ), db.length = bs → ba.length = nb → r ≤ nb →
      ∃ db', innerSteps dev nb r db ba ridx =
          .ok (db', ba.take (nb - r) ++ msList dev r ridx, ridx + r) ∧ db'.length = bs := by
  intro r
  induction r with
  | zero =>
    intro ridx db ba hdb hba hr
    refine ⟨db, ?_, hdb⟩
    simp [innerSteps, msList, Nat.sub_zero, ← hba, List.take_length]
  | succ r ih =>
    intro ridx db ba hdb hba hr
    have h1 := (hread ridx).1
    have h2 := (hread ridx).2
    have hw : writeBuf db (dev.read ridx).data = (dev.read ridx).data :=
      writeBuf_full db _ (by rw [h2, hdb])
    obtain ⟨db', heq, hlen⟩ := ih (ridx + 1) (dev.read ridx).data
      (ba.set (nb - (r + 1)) (convert (vectorMean (dev.read ridx).data)))
      h2 (by simpa using hba) (by omega)
    refine ⟨db', ?_, hlen⟩
    rw [innerSteps]
    simp only [h1, Bool.false_eq_true, if_false, hw]
    rw [heq]
    have hnbr : nb - r = (nb - (r + 1)) + 1 := by omega
    have hlt : nb - (r + 1) < ba.length := by omega
    rw [hnbr, take_set_succ ba (nb - (r + 1)) _ hlt]
    simp only [msList, Except.ok.injEq, Prod.mk.injEq, List.append_assoc,
      List.singleton_append]
    exact ⟨trivial, trivial, by omega⟩

/-- The interval records the loop writes during `r` consecutive fault-free
outer iterations starting at outer index `samplei` and global read index
`ridx`. -/
def recList (dev : Device) (ts : Nat → String) (nb : Nat) : Nat → Nat → Nat → List LogLine
  | 0, _, _ => []
  | r + 1, samplei, ridx =>
    LogLine.record (ts samplei) (vectorMean (msList dev nb ridx)) ::
      recList dev ts nb r (samplei + 1) (ridx + nb)

theorem recList_eq_map (dev : Device) (ts : Nat → String) (nb : Nat) :
    ∀ r samplei ridx,
      recList dev ts nb r samplei ridx =
        (List.range r).map (fun j =>
          LogLine.record (ts (samplei + j)) (vectorMean (msList dev nb (ridx + nb * j)))) := by
  intro r
  induction r with
  | zero => intro samplei ridx; rfl
  | succ r ih =>
    intro samplei ridx
    rw [recList, List.range_succ_eq_map, List.map_cons, List.map_map, ih (samplei + 1) (ridx + nb)]
    refine congrArg₂ _ (by simp) (List.map_congr_left ?_)
    intro j hj
    have e1 : samplei + 1 + j = samplei + (j + 1) := by omega
    have e2 : ridx + nb + nb * j = ridx + nb * (j + 1) := by ring
    simp [Function.comp, e1, e2]

theorem outerSteps_full (dev : Device) (ts : Nat → String) (nb bs : Nat)
    (hread : ∀ i, DAQmxFailed (dev.read i).status = false ∧ (dev.read i).data.length = bs) :
    ∀ r samplei (db ba : List ℚ) ridx log done, db.length = bs → ba.length = nb →
      outerSteps dev ts nb r samplei db ba ridx log done =
        ⟨log ++ recList dev ts nb r samplei ridx, 0, ridx + r * nb, done + r⟩ := by
  intro r
  induction r with
  | zero =>
    intro samplei db ba ridx log done hdb hba
    simp [outerSteps, recList]
  | succ r ih =>
    intro samplei db ba ridx log done hdb hba
    obtain ⟨db', heq, hlen⟩ := innerSteps_full dev nb bs hread nb ridx db ba hdb hba (Nat.le_refl nb)
    rw [outerSteps, heq]
    simp only [Nat.sub_self, List.take_zero, List.nil_append]
    rw [ih (samplei + 1) db' (msList dev nb ridx) (ridx + nb) _ (done + 1) hlen
      (msList_length dev nb ridx)]
    simp only [recList, LoopOut.mk.injEq, List.append_assoc, List.singleton_append]
    exact ⟨trivial, trivial, by ring, by omega⟩

/-- Claim C1: in every fault-free run (all configuration and start statuses
succeed, every read succeeds and deposits a full buffer) the orchestrator
performs exactly `numberOfSamples` outer iterations of `numberOfBuffers`
reads each — `numberOfSamples * numberOfBuffers` read calls in total — and
the log is the header followed by exactly one record per outer iteration
`j`, whose value `intervalValue cfg dev j` is the arithmetic mean of that
iteration's `numberOfBuffers` converted window means, a function of the
data of reads `numberOfBuffers * j + k`, `k < numberOfBuffers`, only (no
leakage from prior intervals). -/
theorem C1_fault_free_run (cfg : Config) (dev : Device) (ts : Nat → String)
    (hbs : 1 ≤ cfg.bufferSize) (hnb : 1 ≤ cfg.numberOfBuffers)
    (hcreate : DAQmxFailed dev.createStatus = false)
    (hchan : DAQmxFailed dev.chanStatus = false)
    (hclk : DAQmxFailed dev.clkStatus = false)
    (hstart : DAQmxFailed dev.startStatus = false)
    (hread : ∀ i, DAQmxFailed (dev.read i).status = false ∧
      (dev.read i).data.length = cfg.bufferSize) :
    (run cfg dev ts).errorStatus = 0 ∧
    (run cfg dev ts).readCalls = cfg.numberOfSamples * cfg.numberOfBuffers ∧
    (run cfg dev ts).intervalsCompleted = cfg.numberOfSamples ∧
    (run cfg dev ts).log = LogLine.header ::
      (List.range cfg.numberOfSamples).map (fun j =>
        LogLine.record (ts j) (intervalValue cfg dev j)) := by
  have hout := outerSteps_full dev ts cfg.numberOfBuffers cfg.bufferSize hread
    cfg.numberOfSamples 0 (List.replicate cfg.bufferSize 0)
    (List.replicate cfg.numberOfBuffers 0) 0 [LogLine.header] 0
    (by simp) (by simp)
  have hrec : recList dev ts cfg.numberOfBuffers cfg.numberOfSamples 0 0 =
      (List.range cfg.numberOfSamples).map (fun j =>
        LogLine.record (ts j) (intervalValue cfg dev j)) := by
    rw [recList_eq_map]
    refine List.map_congr_left ?_
    intro j hj
    simp [intervalValue, msList_eq_map]
  refine ⟨?_, ?_, ?_, ?_⟩ <;>
    simp only [run, cleanup, mainBody, hcreate, hchan, hclk, hstart, Bool.false_eq_true,
      if_false, hout, hrec, Nat.zero_add, List.singleton_append]

/-- Witness for C1 with two intervals of two full reads each. -/
theorem C1_fault_free_run_witness :
    (run ⟨2, 2, 2⟩ devFull tsW).errorStatus = 0 ∧
    (run ⟨2, 2, 2⟩ devFull tsW).readCalls = 2 * 2 ∧
    (run ⟨2, 2, 2⟩ devFull tsW).intervalsCompleted = 2 ∧
    (run ⟨2, 2, 2⟩ devFull tsW).log = LogLine.header ::
      (List.range 2).map (fun j => LogLine.record (tsW j) (intervalValue ⟨2, 2, 2⟩ devFull j)) :=
  C1_fault_free_run ⟨2, 2, 2⟩ devFull tsW (by decide) (by decide) rfl rfl rfl rfl
    (fun i => ⟨rfl, rfl⟩)

/-! Section: Short reads and missing configuration validation (claims C4, C7) -/

/-- Claim C4 fails on the source: with `bufferCapacity = 2` a read that
returns success status but deposits only one sample (`[2]`, `sampsRead = 1`)
is not treated as an error.  `DAQmxErrChk` checks only the status, the
`reads` out-parameter is never inspected, so the run completes with
`errorStatus = 0` and logs the average of the partially overwritten buffer
`[2, 0]` — one fresh sample and one stale zero-initialised slot — instead of
failing with a `ReadError`. -/
theorem C4_short_read_tolerated :
    (run ⟨2, 1, 1⟩ devShortRead tsW).errorStatus = 0 ∧
    (run ⟨2, 1, 1⟩ devShortRead tsW).intervalsCompleted = 1 ∧
    (run ⟨2, 1, 1⟩ devShortRead tsW).log =
      [LogLine.header, LogLine.record (tsW 0) (convert (vectorMean [2, 0]))] := by
  refine ⟨?_, ?_, ?_⟩ <;>
    norm_num [run, cleanup, mainBody, outerSteps, innerSteps, writeBuf,
      vectorMean, convert, DAQmxFailed, devShortRead, List.replicate]

/-- Claim C7 fails on the source: there is no configuration validation at
all.  With `bufferCapacity = 0` (first run) or `numberOfBuffers = 0` (second
run) the program still performs all three device-configuration calls and the
start call, performs its reads, never raises any error
(`errorStatus = 0` — the program has no `ConfigurationError` at all), and
writes a header plus an interval record whose value comes from a division by
a zero element count (`0.0 / 0.0`, a quiet NaN in the C++ source; the
record's value is therefore not asserted here, only the control flow). -/
theorem C7_no_config_validation :
    (run ⟨0, 2, 1⟩ devEmptyRead tsW).errorStatus = 0 ∧
    (run ⟨0, 2, 1⟩ devEmptyRead tsW).configureCalls = 3 ∧
    (run ⟨0, 2, 1⟩ devEmptyRead tsW).startCalls = 1 ∧
    (run ⟨0, 2, 1⟩ devEmptyRead tsW).readCalls = 2 ∧
    (run ⟨0, 2, 1⟩ devEmptyRead tsW).log.length = 2 ∧
    (run ⟨2, 0, 1⟩ devFull tsW).errorStatus = 0 ∧
    (run ⟨2, 0, 1⟩ devFull tsW).configureCalls = 3 ∧
    (run ⟨2, 0, 1⟩ devFull tsW).log.length = 2 := by
  refine ⟨?_, ?_, ?_, ?_, ?_, ?_, ?_, ?_⟩ <;>
    norm_num [run, cleanup, mainBody, outerSteps, innerSteps, writeBuf,
      vectorMean, convert, DAQmxFailed, devEmptyRead, devFull, List.replicate]

/-! Section: Log structure (claim C8) -/

theorem outerSteps_records (dev : Device) (ts : Nat → String) (nb : Nat) :
    ∀ r samplei (db ba : List ℚ) ridx log done,
      ∃ recs, (outerSteps dev ts nb r samplei db ba ridx log done).log = log ++ recs ∧
        (outerSteps dev ts nb r samplei db ba ridx log done).intervalsCompleted =
          done + recs.length ∧
        ∀ l ∈ recs, ∃ t v, l = LogLine.record t v := by
  intro r
  induction r with
  | zero =>
    intro samplei db ba ridx log done
    exact ⟨[], by simp [outerSteps], by simp [outerSteps], by simp⟩
  | succ r ih =>
    intro samplei db ba ridx log done
    cases heq : innerSteps dev nb nb db ba ridx with
    | error e =>
      exact ⟨[], by simp [outerSteps, heq], by simp [outerSteps, heq], by simp⟩
    | ok x =>
      obtain ⟨db2, ba2, ridx2⟩ := x
      obtain ⟨recs, hlog, hic, hrec⟩ := ih (samplei + 1) db2 ba2 ridx2
        (log ++ [LogLine.record (ts samplei) (vectorMean ba2)]) (done + 1)
      refine ⟨LogLine.record (ts samplei) (vectorMean ba2) :: recs, ?_, ?_, ?_⟩
      · rw [outerSteps, heq]
        simp only [hlog, List.append_assoc, List.singleton_append]
      · rw [outerSteps, heq]
        simp only [hic, List.length_cons]
        omega
      · intro l hl
        rcases List.mem_cons.mp hl with h | h
        · exact ⟨ts samplei, vectorMean ba2, h⟩
        · exact hrec l h

/-- Claim C8: in every run that reaches the acquisition loop (all
configuration and start calls succeed) the file is opened exactly once and
closed exactly once, and the log is the header row followed by exactly one
`<timestamp>,<value>` record per completed interval, in emission order. -/
theorem C8_log_format (cfg : Config) (dev : Device) (ts : Nat → String)
    (hcreate : DAQmxFailed dev.createStatus = false)
    (hchan : DAQmxFailed dev.chanStatus = false)
    (hclk : DAQmxFailed dev.clkStatus = false)
    (hstart : DAQmxFailed dev.startStatus = false) :
    (run cfg dev ts).fileOpens = 1 ∧ (run cfg dev ts).fileCloses = 1 ∧
    ∃ recs, (run cfg dev ts).log = LogLine.header :: recs ∧
      recs.length = (run cfg dev ts).intervalsCompleted ∧
      ∀ l ∈ recs, ∃ t v, l = LogLine.record t v := by
  obtain ⟨recs, hlog, hic, hrec⟩ := outerSteps_records dev ts cfg.numberOfBuffers
    cfg.numberOfSamples 0 (List.replicate cfg.bufferSize 0)
    (List.replicate cfg.numberOfBuffers 0) 0 [LogLine.header] 0
  refine ⟨?_, ?_, recs, ?_, ?_, hrec⟩ <;>
    simp only [run, cleanup, mainBody, hcreate, hchan, hclk, hstart, Bool.false_eq_true,
      if_false, hlog, hic, List.singleton_append, Nat.zero_add]

/-- Witness for C8 with a healthy device and one single-read interval. -/
theorem C8_log_format_witness :
    (run ⟨2, 1, 1⟩ devFull tsW).fileOpens = 1 ∧ (run ⟨2, 1, 1⟩ devFull tsW).fileCloses = 1 ∧
    ∃ recs, (run ⟨2, 1, 1⟩ devFull tsW).log = LogLine.header :: recs ∧
      recs.length = (run ⟨2, 1, 1⟩ devFull tsW).intervalsCompleted ∧
      ∀ l ∈ recs, ∃ t v, l = LogLine.record t v :=
  C8_log_format ⟨2, 1, 1⟩ devFull tsW rfl rfl rfl rfl

/-! Section: Abort on read failure (claim C9) -/

theorem innerSteps_ok_statuses (dev : Device) (nb : Nat) :
    ∀ r ridx (db ba : List ℚ),
      (∀ k, k < r → DAQmxFailed (dev.read (ridx + k)).status = false) →
      ∃ db' ba', innerSteps dev nb r db ba ridx = .ok (db', ba', ridx + r) := by
  intro r
  induction r with
  | zero =>
    intro ridx db ba h
    exact ⟨db, ba, by simp [innerSteps]⟩
  | succ r ih =>
    intro ridx db ba h
    have h0 : DAQmxFailed (dev.read ridx).status = false := by
      have := h 0 (by omega)
      simpa using this
    obtain ⟨db', ba', heq⟩ := ih (ridx + 1) (writeBuf db (dev.read ridx).data)
      (ba.set (nb - (r + 1)) (convert (vectorMean (writeBuf db (dev.read ridx).data))))
      (fun k hk => by
        have e : ridx + 1 + k = ridx + (k + 1) := by omega
        rw [e]
        exact h (k + 1) (by omega))
    have e : ridx + 1 + r = ridx + (r + 1) := by omega
    rw [e] at heq
    refine ⟨db', ba', ?_⟩
    rw [innerSteps]
    simp only [h0, Bool.false_eq_true, if_false]
    exact heq

theorem innerSteps_fail (dev : Device) (nb : Nat) :
    ∀ r m ridx (db ba : List ℚ), m < r →
      (∀ k, k < m → DAQmxFailed (dev.read (ridx + k)).status = false) →
      DAQmxFailed (dev.read (ridx + m)).status = true →
      innerSteps dev nb r db ba ridx = .error ((dev.read (ridx + m)).status, ridx + m + 1) := by
  intro r
  induction r with
  | zero =>
    intro m ridx db ba hm
    omega
  | succ r ih =>
    intro m ridx db ba hm hok hbad
    cases m with
    | zero =>
      simp only [Nat.add_zero] at hbad
      rw [innerSteps]
      simp [hbad]
    | succ m =>
      have h0 : DAQmxFailed (dev.read ridx).status = false := by
        have := hok 0 (by omega)
        simpa using this
      have e : ∀ j : Nat, ridx + 1 + j = ridx + (j + 1) := fun j => by omega
      rw [innerSteps]
      simp only [h0, Bool.false_eq_true, if_false]
      rw [ih m (ridx + 1) _ _ (by omega)
        (fun k hk => by rw [e k]; exact hok (k + 1) (by omega))
        (by rw [e m]; exact hbad)]
      rw [e m]

theorem outerSteps_fail (dev : Device) (ts : Nat → String) (nb : Nat) (i : Nat)
    (hok : ∀ r, r < i → DAQmxFailed (dev.read r).status = false)
    (hbad : DAQmxFailed (dev.read i).status = true) :
    ∀ rem samplei (db ba : List ℚ) ridx log done, ridx ≤ i → i - ridx < rem * nb →
      ∃ recs, outerSteps dev ts nb rem samplei db ba ridx log done =
          ⟨log ++ recs, (dev.read i).status, i + 1, done + (i - ridx) / nb⟩ ∧
        recs.length = (i - ridx) / nb ∧
        ∀ l ∈ recs, ∃ t v, l = LogLine.record t v := by
  intro rem
  induction rem with
  | zero =>
    intro samplei db ba ridx log done hri hlt
    rw [Nat.zero_mul] at hlt
    omega
  | succ rem ih =>
    intro samplei db ba ridx log done hri hlt
    by_cases hcase : i - ridx < nb
    · have erx : ridx + (i - ridx) = i := by omega
      have hfail := innerSteps_fail dev nb nb (i - ridx) ridx db ba hcase
        (fun k hk => hok (ridx + k) (by omega)) (by rw [erx]; exact hbad)
      rw [erx] at hfail
      have hdiv : (i - ridx) / nb = 0 := Nat.div_eq_of_lt hcase
      refine ⟨[], ?_, by simp [hdiv], by simp⟩
      rw [outerSteps, hfail]
      simp only [hdiv, Nat.add_zero, List.append_nil]
    · have hnb : 0 < nb := by
        rcases Nat.eq_zero_or_pos nb with h0 | h0
        · rw [h0, Nat.mul_zero] at hlt
          omega
        · exact h0
      obtain ⟨db', ba', hinner⟩ := innerSteps_ok_statuses dev nb nb ridx db ba
        (fun k hk => hok (ridx + k) (by omega))
      have hlt2 : i - (ridx + nb) < rem * nb := by
        have hmul : (rem + 1) * nb = rem * nb + nb := by ring
        rw [hmul] at hlt
        set M := rem * nb with hM
        omega
      obtain ⟨recs, hout, hlen, hrec⟩ := ih (samplei + 1) db' ba' (ridx + nb)
        (log ++ [LogLine.record (ts samplei) (vectorMean ba')]) (done + 1)
        (by omega) hlt2
      have hdiv : (i - ridx) / nb = (i - (ridx + nb)) / nb + 1 := by
        have h1 : nb ≤ i - ridx := by omega
        have h2 : i - ridx - nb = i - (ridx + nb) := by omega
        rw [Nat.div_eq_sub_div hnb h1, h2]
      refine ⟨LogLine.record (ts samplei) (vectorMean ba') :: recs, ?_, ?_, ?_⟩
      · rw [outerSteps, hinner]
        simp only [hout, LoopOut.mk.injEq, List.append_assoc, List.singleton_append, hdiv]
        refine ⟨trivial, trivial, trivial, by omega⟩
      · simp only [List.length_cons, hlen, hdiv]
      · intro l hl
        rcases List.mem_cons.mp hl with h | h
        · exact ⟨ts samplei, vectorMean ba', h⟩
        · exact hrec l h

/-- Claim C9: if the configure and start calls succeed, the first `i` reads
succeed and read `i` fails (failure during inner iteration
`i % numberOfBuffers` of outer iteration `i / numberOfBuffers`), then the
run aborts with the failing status and the log at abort is exactly the
header plus the `i / numberOfBuffers` records of the previously completed
intervals: no record derived from the partially completed interval is
written. -/
theorem C9_abort_atomic (cfg : Config) (dev : Device) (ts : Nat → String) (i : Nat)
    (hcreate : DAQmxFailed dev.createStatus = false)
    (hchan : DAQmxFailed dev.chanStatus = false)
    (hclk : DAQmxFailed dev.clkStatus = false)
    (hstart : DAQmxFailed dev.startStatus = false)
    (hok : ∀ r, r < i → DAQmxFailed (dev.read r).status = false)
    (hbad : DAQmxFailed (dev.read i).status = true)
    (hi : i < cfg.numberOfSamples * cfg.numberOfBuffers) :
    ∃ recs, (run cfg dev ts).log = LogLine.header :: recs ∧
      recs.length = i / cfg.numberOfBuffers ∧
      (∀ l ∈ recs, ∃ t v, l = LogLine.record t v) ∧
      (run cfg dev ts).errorStatus = (dev.read i).status ∧
      (run cfg dev ts).readCalls = i + 1 ∧
      (run cfg dev ts).intervalsCompleted = i / cfg.numberOfBuffers := by
  obtain ⟨recs, hout, hlen, hrec⟩ := outerSteps_fail dev ts cfg.numberOfBuffers i hok hbad
    cfg.numberOfSamples 0 (List.replicate cfg.bufferSize 0)
    (List.replicate cfg.numberOfBuffers 0) 0 [LogLine.header] 0
    (Nat.zero_le i) (by simpa using hi)
  refine ⟨recs, ?_, by simpa using hlen, hrec, ?_, ?_, ?_⟩ <;>
    simp only [run, cleanup, mainBody, hcreate, hchan, hclk, hstart, Bool.false_eq_true,
      if_false, hout, List.singleton_append, Nat.zero_add, Nat.sub_zero]

/-- Witness for C9: the third read (global index 2, inner iteration 0 of
outer iteration 1) times out after one completed interval. -/
theorem C9_abort_atomic_witness :
    ∃ recs, (run ⟨2, 2, 2⟩ devFailAt2 tsW).log = LogLine.header :: recs ∧
      recs.length = 2 / 2 ∧
      (∀ l ∈ recs, ∃ t v, l = LogLine.record t v) ∧
      (run ⟨2, 2, 2⟩ devFailAt2 tsW).errorStatus = (devFailAt2.read 2).status ∧
      (run ⟨2, 2, 2⟩ devFailAt2 tsW).readCalls = 2 + 1 ∧
      (run ⟨2, 2, 2⟩ devFailAt2 tsW).intervalsCompleted = 2 / 2 :=
  C9_abort_atomic ⟨2, 2, 2⟩ devFailAt2 tsW 2 rfl rfl rfl rfl
    (by intro r hr; interval_cases r <;> rfl) rfl (by decide)

/-! Section: Determinism in the device inputs (claim C10) -/

theorem logValues_append (a b : List LogLine) :
    logValues (a ++ b) = logValues a ++ logValues b := by
  induction a with
  | nil => rfl
  | cons x a ih => cases x <;> simp [logValues, ih]

theorem outerSteps_ts_independent (dev : Device) (nb : Nat) (ts ts' : Nat → String) :
    ∀ rem samplei (db ba : List ℚ) ridx log log' done,
      logValues log = logValues log' →
      logValues (outerSteps dev ts nb rem samplei db ba ridx log done).log =
        logValues (outerSteps dev ts' nb rem samplei db ba ridx log' done).log ∧
      (outerSteps dev ts nb rem samplei db ba ridx log done).errorStatus =
        (outerSteps dev ts' nb rem samplei db ba ridx log' done).errorStatus ∧
      (outerSteps dev ts nb rem samplei db ba ridx log done).readCalls =
        (outerSteps dev ts' nb rem samplei db ba ridx log' done).readCalls ∧
      (outerSteps dev ts nb rem samplei db ba ridx log done).intervalsCompleted =
        (outerSteps dev ts' nb rem samplei db ba ridx log' done).intervalsCompleted := by
  intro rem
  induction rem with
  | zero =>
    intro samplei db ba ridx log log' done h
    simp [outerSteps, h]
  | succ rem ih =>
    intro samplei db ba ridx log log' done h
    cases heq : innerSteps dev nb nb db ba ridx with
    | error e => simp [outerSteps, heq, h]
    | ok x =>
      obtain ⟨db2, ba2, ridx2⟩ := x
      have h2 : logValues (log ++ [LogLine.record (ts samplei) (vectorMean ba2)]) =
          logValues (log' ++ [LogLine.record (ts' samplei) (vectorMean ba2)]) := by
        rw [logValues_append, logValues_append, h]
        rfl
      have hrest := ih (samplei + 1) db2 ba2 ridx2
        (log ++ [LogLine.record (ts samplei) (vectorMean ba2)])
        (log' ++ [LogLine.record (ts' samplei) (vectorMean ba2)]) (done + 1) h2
      simpa [outerSteps, heq] using hrest

/-- Claim C10: given the same device behaviour (sample data and
success/failure status of every call), two runs differing only in their
wall-clock timestamps write the same sequence of interval values to the log,
abort with the same status, and make the same number of read calls: the
output values are a deterministic function of the device inputs. -/
theorem C10_values_deterministic (cfg : Config) (dev : Device) (ts ts' : Nat → String) :
    logValues (run cfg dev ts).log = logValues (run cfg dev ts').log ∧
    (run cfg dev ts).errorStatus = (run cfg dev ts').errorStatus ∧
    (run cfg dev ts).readCalls = (run cfg dev ts').readCalls ∧
    (run cfg dev ts).intervalsCompleted = (run cfg dev ts').intervalsCompleted := by
  by_cases h1 : DAQmxFailed dev.createStatus = true
  · simp [run, cleanup, mainBody, h1]
  · have h1' : DAQmxFailed dev.createStatus = false := by simpa using h1
    by_cases h2 : DAQmxFailed dev.chanStatus = true
    · simp [run, cleanup, mainBody, h1', h2]
    · have h2' : DAQmxFailed dev.chanStatus = false := by simpa using h2
      by_cases h3 : DAQmxFailed dev.clkStatus = true
      · simp [run, cleanup, mainBody, h1', h2', h3]
      · have h3' : DAQmxFailed dev.clkStatus = false := by simpa using h3
        by_cases h4 : DAQmxFailed dev.startStatus = true
        · simp [run, cleanup, mainBody, h1', h2', h3', h4]
        · have h4' : DAQmxFailed dev.startStatus = false := by simpa using h4
          have hind := outerSteps_ts_independent dev cfg.numberOfBuffers ts ts'
            cfg.numberOfSamples 0 (List.replicate cfg.bufferSize 0)
            (List.replicate cfg.numberOfBuffers 0) 0 [LogLine.header] [LogLine.header] 0 rfl
          refine ⟨?_, ?_, ?_, ?_⟩ <;>
            simp only [run, cleanup, mainBody, h1', h2', h3', h4', Bool.false_eq_true,
              if_false]
          · exact hind.1
          · exact hind.2.1
          · exact hind.2.2.1
          · exact hind.2.2.2
